import Mathlib

/-!
Shallow embedding of the hybrid fan-out timeline engine of the
twitter-clone repository (src/app/services/fanout.py,
src/app/services/timeline.py, src/app/core/redis.py, src/app/config.py).

Modelling conventions:
* Post ids, user ids and follower counts are `Nat`.  Redis sorted-set
  members are written by the source as `str(tweet.id)` with score
  `float(tweet.id)`; since the member string is the decimal rendering of
  the id and the score equals the id, a sorted-set value is modelled as a
  list of ids kept sorted ascending by id (redis order), with no
  duplicates.
* The relational store (SQLAlchemy queries over `tweets`, `users`,
  `follows`) is modelled as explicit lists; each query in the source is
  translated into the corresponding filter/sort/limit on those lists.
* Engagement enrichment (`is_liked` / `is_retweeted` flags added by
  `_enrich_tweet`) is a deterministic per-row decoration read from the
  likes/retweets tables; no claim mentions it, so the response carries
  the tweet rows themselves.
* Python `int(cursor)` raising `ValueError` is modelled by
  `pythonInt?` returning `none`; `if max_id:` tests Python truthiness
  (`None` and `0` are both falsy), which is modelled explicitly.
* Every redis call in the source raises when the connection is down and
  no service-layer code catches such an exception, so the fallible read
  path is modelled in `Except Unit` (`…E` definitions): each redis
  operation errors exactly when the cache is unavailable.  The cache
  availability is fixed for the duration of one request.  The pure
  (non-`E`) definitions describe a request during which the cache layer
  answers.
-/

set_option maxRecDepth 8000

namespace TwitterClone

/-- Settings from `app/config.py`: the configuration fields the core reads
(defaults shown in `defaultSettings`; values are env-overridable). -/
structure Settings where
  celebrity_threshold : Nat
  timeline_cache_ttl : Nat
  timeline_max_size : Nat
deriving DecidableEq, Repr

/-- The default configuration from `app/config.py`. -/
def defaultSettings : Settings :=
  { celebrity_threshold := 5000, timeline_cache_ttl := 300, timeline_max_size := 800 }

/-- A row of the `tweets` table (fields the core reads). -/
structure Tweet where
  id : Nat
  author_id : Nat
  reply_to_id : Option Nat
  content : String
deriving DecidableEq, Repr

/-- A row of the `users` table (fields the core reads). -/
structure User where
  id : Nat
  followers_count : Nat
deriving DecidableEq, Repr

/-- A row of the `follows` table. -/
structure Follow where
  follower_id : Nat
  following_id : Nat
deriving DecidableEq, Repr

/-- The durable relational store. -/
structure Db where
  tweets : List Tweet
  users : List User
  follows : List Follow
deriving DecidableEq, Repr

/-- The two sorted-set key families the core writes:
`f"timeline:{user_id}"` and `f"celebrity_tweets:{user_id}"`. -/
inductive CacheKey where
  | timeline (user_id : Nat)
  | celebrity_tweets (user_id : Nat)
deriving DecidableEq, Repr

/-- A message published on the `"tweets:realtime"` channel (the JSON
payloads built in `FanoutService._publish_realtime` and
`FanoutService.remove_from_timelines`). -/
inductive RealtimeMessage where
  | new_tweet (tweet_id : Nat) (author_id : Nat) (content : String) (follower_ids : List Nat)
  | tweet_deleted (tweet_id : Nat)
deriving DecidableEq, Repr

/-- The redis server state: the sorted sets (each value a list of ids
sorted ascending), the sequence of published realtime messages, and
whether the connection is up. -/
structure RedisState where
  sets : List (CacheKey × List Nat)
  published : List RealtimeMessage
  available : Bool
deriving DecidableEq, Repr

/-- Look a key up among the sorted sets; a missing key is the empty set
(redis semantics). -/
def lookupSet : List (CacheKey × List Nat) → CacheKey → List Nat
  | [], _ => []
  | (k, v) :: rest, key => if k = key then v else lookupSet rest key

/-- Store a value under a key, replacing any previous value. -/
def storeSet : List (CacheKey × List Nat) → CacheKey → List Nat → List (CacheKey × List Nat)
  | [], key, v => [(key, v)]
  | (k, w) :: rest, key, v =>
      if k = key then (key, v) :: rest else (k, w) :: storeSet rest key v

/-- The value of one sorted set. -/
def RedisState.getSet (r : RedisState) (k : CacheKey) : List Nat :=
  lookupSet r.sets k

/-- Insert an id into an ascending sorted-set value (`ZADD` with score =
member id): a no-op when the member is already present. -/
def zsetInsert (x : Nat) : List Nat → List Nat
  | [] => [x]
  | y :: ys => if x < y then x :: y :: ys else if x = y then y :: ys else y :: zsetInsert x ys

/-- Normalise a redis `[start, stop]` rank range against a set of `n`
elements: negative indexes count from the end, out-of-range indexes are
clamped, and an inverted or fully out-of-range window selects nothing. -/
def sliceIdx (n : Nat) (start stop : Int) : Option (Nat × Nat) :=
  let s0 : Int := if start < 0 then start + n else start
  let e0 : Int := if stop < 0 then stop + n else stop
  let s1 : Int := max s0 0
  let e1 : Int := min e0 ((n : Int) - 1)
  if e1 < s1 ∨ (n : Int) ≤ s1 then none else some (s1.toNat, e1.toNat)

/-- Redis `ZREVRANGE key start stop`: ranks taken in descending-score order. -/
def zrevrangeList (l : List Nat) (start stop : Int) : List Nat :=
  match sliceIdx l.length start stop with
  | none => []
  | some (s, e) => ((l.reverse).drop s).take (e + 1 - s)

/-- Redis `ZREMRANGEBYRANK key start stop`: remove the members in the
(ascending-score) rank window. -/
def zremrangebyrankList (l : List Nat) (start stop : Int) : List Nat :=
  match sliceIdx l.length start stop with
  | none => l
  | some (s, e) => l.take s ++ l.drop (e + 1)

/-- Model of `RedisClient.zadd` (score = id, see modelling note). -/
def RedisState.zadd (r : RedisState) (k : CacheKey) (x : Nat) : RedisState :=
  { r with sets := storeSet r.sets k (zsetInsert x (lookupSet r.sets k)) }

/-- Model of `RedisClient.zrem`. -/
def RedisState.zrem (r : RedisState) (k : CacheKey) (x : Nat) : RedisState :=
  { r with sets := storeSet r.sets k ((lookupSet r.sets k).filter (fun y => y ≠ x)) }

/-- Model of `RedisClient.zremrangebyrank`. -/
def RedisState.zremrangebyrank (r : RedisState) (k : CacheKey) (start stop : Int) : RedisState :=
  { r with sets := storeSet r.sets k (zremrangebyrankList (lookupSet r.sets k) start stop) }

/-- Model of `RedisClient.zrange(key, start, stop, desc=True)`. -/
def RedisState.zrevrange (r : RedisState) (k : CacheKey) (start stop : Int) : List Nat :=
  zrevrangeList (r.getSet k) start stop

/-- Model of `RedisClient.publish("tweets:realtime", message)`. -/
def RedisState.publish (r : RedisState) (m : RealtimeMessage) : RedisState :=
  { r with published := r.published ++ [m] }

/-- Query `select(Follow.follower_id).where(Follow.following_id == author.id)`. -/
def followerIds (db : Db) (author_id : Nat) : List Nat :=
  (db.follows.filter (fun f => f.following_id == author_id)).map (·.follower_id)

/-- Query `select(Follow.following_id).where(Follow.follower_id == user_id)`. -/
def followingIds (db : Db) (user_id : Nat) : List Nat :=
  (db.follows.filter (fun f => f.follower_id == user_id)).map (·.following_id)

/-- The join in `TimelineService._get_celebrity_tweets`: ids of followees
of `user_id` whose `followers_count` is at or above the celebrity
threshold. -/
def celebrityFollowingIds (s : Settings) (db : Db) (user_id : Nat) : List Nat :=
  (db.follows.filter (fun f => f.follower_id == user_id)).filterMap (fun f =>
    (db.users.find? (fun u => u.id == f.following_id)).bind (fun u =>
      if s.celebrity_threshold ≤ u.followers_count then some u.id else none))

/-- Sort ids descending (`sorted(..., key=int, reverse=True)` /
`ORDER BY id DESC`). -/
def sortDescNat (l : List Nat) : List Nat :=
  l.insertionSort (fun a b => b ≤ a)

/-- Sort tweet rows by id descending (`ORDER BY tweets.id DESC`). -/
def sortDescTweets (l : List Tweet) : List Tweet :=
  l.insertionSort (fun a b => b.id ≤ a.id)

/-- One iteration of the `_fanout_regular` loop body for one follower:
`zadd` the tweet id, then trim ranks `[0, -timeline_max_size - 1]`. -/
def fanoutStep (s : Settings) (tweet_id : Nat) (r : RedisState) (follower_id : Nat) : RedisState :=
  (r.zadd (.timeline follower_id) tweet_id).zremrangebyrank
    (.timeline follower_id) 0 (-(s.timeline_max_size : Int) - 1)

/-- Model of `FanoutService._publish_realtime`. -/
def publish_realtime (r : RedisState) (tweet : Tweet) (follower_ids : List Nat) : RedisState :=
  r.publish (.new_tweet tweet.id tweet.author_id tweet.content follower_ids)

/-- Model of `FanoutService._fanout_regular`. -/
def fanout_regular (s : Settings) (db : Db) (r : RedisState) (tweet : Tweet) (author : User) :
    Nat × RedisState :=
  let follower_ids := followerIds db author.id
  if follower_ids = [] then (0, r)
  else
    let r1 := follower_ids.foldl (fanoutStep s tweet.id) r
    let r2 := publish_realtime r1 tweet follower_ids
    (follower_ids.length, r2)

/-- Model of `FanoutService._fanout_celebrity` (TTL refresh not modelled: wall
time is outside the embedding). -/
def fanout_celebrity (s : Settings) (db : Db) (r : RedisState) (tweet : Tweet) (author : User) :
    Nat × RedisState :=
  let r1 := r.zadd (.celebrity_tweets author.id) tweet.id
  let r2 := r1.zremrangebyrank (.celebrity_tweets author.id) 0 (-201)
  let follower_ids := followerIds db author.id
  let r3 := publish_realtime r2 tweet follower_ids
  (1, r3)

/-- Model of `FanoutService.fanout_tweet`. -/
def fanout_tweet (s : Settings) (db : Db) (r : RedisState) (tweet : Tweet) (author : User) :
    Nat × RedisState :=
  if s.celebrity_threshold ≤ author.followers_count then fanout_celebrity s db r tweet author
  else fanout_regular s db r tweet author

/-- Model of `FanoutService.remove_from_timelines`. -/
def remove_from_timelines (s : Settings) (db : Db) (r : RedisState) (tweet : Tweet)
    (author : User) : RedisState :=
  let r1 :=
    if s.celebrity_threshold ≤ author.followers_count then
      r.zrem (.celebrity_tweets author.id) tweet.id
    else
      (followerIds db author.id).foldl (fun acc fid => acc.zrem (.timeline fid) tweet.id) r
  r1.publish (.tweet_deleted tweet.id)

/-- Response shape `TimelineResponse` (tweet rows in page order, next cursor, has-more
flag). -/
structure TimelineResponse where
  tweets : List Tweet
  next_cursor : Option String
  has_more : Bool
deriving DecidableEq, Repr

/-- Decimal digit value of a character, if it is a digit. -/
def digitVal? (c : Char) : Option Nat :=
  if '0' ≤ c ∧ c ≤ '9' then some (c.toNat - '0'.toNat) else none

/-- Parse a run of decimal digits (accumulator style); `none` on any
non-digit. -/
def parseDigits (acc : Nat) : List Char → Option Nat
  | [] => some acc
  | c :: cs =>
    match digitVal? c with
    | some d => parseDigits (acc * 10 + d) cs
    | none => none

/-- Python `int(string)`: an optional sign followed by at least one
decimal digit; anything else raises `ValueError`, modelled as `none`.
(Python additionally strips surrounding whitespace and accepts grouping
underscores; those inputs never arise here, since cursors the system
itself hands out are plain decimal strings.) -/
def pythonInt? (s : String) : Option Int :=
  match s.data with
  | [] => none
  | '-' :: cs => if cs = [] then none else (parseDigits 0 cs).map (fun n => -(n : Int))
  | '+' :: cs => if cs = [] then none else (parseDigits 0 cs).map (fun n => (n : Int))
  | cs => (parseDigits 0 cs).map (fun n => (n : Int))

/-- Cursor parsing in both timeline methods: `int(cursor)` with
`ValueError` recovered as no cursor. -/
def parse_cursor : Option String → Option Int
  | none => none
  | some c => pythonInt? c

/-- The `if max_id: all_tweet_ids = [tid for tid in all_tweet_ids if
int(tid) < max_id]` step; `if max_id:` is Python truthiness, so `0` (like
`None`) skips the filter. -/
def applyCursor (max_id : Option Int) (ids : List Nat) : List Nat :=
  match max_id with
  | none => ids
  | some m => if m = 0 then ids else ids.filter (fun tid => decide ((tid : Int) < m))

/-- Model of `TimelineService._get_celebrity_tweets`. -/
def get_celebrity_tweets (s : Settings) (db : Db) (r : RedisState) (user_id limit : Nat) :
    List Nat :=
  let celebrity_ids := celebrityFollowingIds s db user_id
  if celebrity_ids = [] then []
  else celebrity_ids.foldl
    (fun acc celeb_id => acc ++ r.zrevrange (.celebrity_tweets celeb_id) 0 (limit : Int)) []

/-- The id list `_rebuild_timeline` fetches from the durable store: the
most recent `limit` top-level tweets authored by anyone the user follows
(NB: the source filters by the full followee list, with no
follower-count condition). -/
def rebuildIds (db : Db) (user_id limit : Nat) : List Nat :=
  (sortDescNat ((db.tweets.filter (fun t =>
      (followingIds db user_id).contains t.author_id && t.reply_to_id == none)).map (·.id))).take
    limit

/-- Model of `TimelineService._rebuild_timeline` (the `expire` TTL call touches no
modelled state). -/
def rebuild_timeline (s : Settings) (db : Db) (r : RedisState) (user_id limit : Nat) :
    List Nat × RedisState :=
  let following_ids := followingIds db user_id
  if following_ids = [] then ([], r)
  else
    let tweet_ids := rebuildIds db user_id limit
    if tweet_ids = [] then (tweet_ids, r)
    else (tweet_ids, tweet_ids.foldl (fun acc tid => acc.zadd (.timeline user_id) tid) r)

/-- Model of `TimelineService._fetch_tweets`: batched lookup preserving the id
order; ids with no row are silently skipped. -/
def fetch_tweets (db : Db) (tweet_ids : List Nat) : List Tweet :=
  tweet_ids.filterMap (fun tid => db.tweets.find? (fun t => t.id == tid))

/-- Model of `TimelineService.get_home_timeline` after cursor parsing (the parsed
cursor is the only thing the cursor string influences). -/
def get_home_timeline_from (s : Settings) (db : Db) (r : RedisState) (user_id limit : Nat)
    (max_id : Option Int) : TimelineResponse × RedisState :=
  let cached_tweet_ids := r.zrevrange (.timeline user_id) 0 ((limit : Int) + 50)
  let celebrity_tweet_ids := get_celebrity_tweets s db r user_id limit
  let merged := (cached_tweet_ids ++ celebrity_tweet_ids).dedup
  let rebuilt := if merged = [] then rebuild_timeline s db r user_id (limit * 2) else (merged, r)
  let all_tweet_ids := rebuilt.1
  let r1 := rebuilt.2
  let filtered := applyCursor max_id all_tweet_ids
  let page_ids := (sortDescNat filtered).take (limit + 1)
  let has_more := decide (limit < page_ids.length)
  let final_ids := if has_more then page_ids.take limit else page_ids
  let tweets := fetch_tweets db final_ids
  let next_cursor := if has_more then tweets.getLast?.map (fun t => toString t.id) else none
  ({ tweets := tweets, next_cursor := next_cursor, has_more := has_more }, r1)

/-- Model of `TimelineService.get_home_timeline`. -/
def get_home_timeline (s : Settings) (db : Db) (r : RedisState) (user_id limit : Nat)
    (cursor : Option String) : TimelineResponse × RedisState :=
  get_home_timeline_from s db r user_id limit (parse_cursor cursor)

/-- The `WHERE Tweet.id < max_id` clause of `get_user_timeline`, added
only when `if max_id:` is truthy. -/
def tweetBeforeCursor (max_id : Option Int) (t : Tweet) : Bool :=
  match max_id with
  | none => true
  | some m => if m = 0 then true else decide ((t.id : Int) < m)

/-- Model of `TimelineService.get_user_timeline` after cursor parsing.  The
`current_user_id` argument only affects the engagement decoration (see
modelling note), so it is not a parameter here. -/
def get_user_timeline_from (db : Db) (target_user_id limit : Nat) (max_id : Option Int) :
    TimelineResponse :=
  let rows := (sortDescTweets (db.tweets.filter (fun t =>
      t.author_id == target_user_id && t.reply_to_id == none
        && tweetBeforeCursor max_id t))).take (limit + 1)
  let has_more := decide (limit < rows.length)
  let tweets := if has_more then rows.take limit else rows
  let next_cursor := if has_more then tweets.getLast?.map (fun t => toString t.id) else none
  { tweets := tweets, next_cursor := next_cursor, has_more := has_more }

/-- Model of `TimelineService.get_user_timeline`. -/
def get_user_timeline (db : Db) (target_user_id limit : Nat) (cursor : Option String) :
    TimelineResponse :=
  get_user_timeline_from db target_user_id limit (parse_cursor cursor)

/-! ### The fallible read path

Every `RedisClient` call raises when the redis connection is down, and
no caller in the service layer catches such an error, so each operation
is wrapped in `Except Unit`: it errors exactly when the cache is
unavailable (`RedisState.available = false`).  The durable store is the
always-answering baseline of the model. -/

/-- A fallible `ZREVRANGE`. -/
def RedisState.zrevrangeE (r : RedisState) (k : CacheKey) (start stop : Int) :
    Except Unit (List Nat) :=
  if r.available then .ok (r.zrevrange k start stop) else .error ()

/-- A fallible `ZADD`. -/
def RedisState.zaddE (r : RedisState) (k : CacheKey) (x : Nat) : Except Unit RedisState :=
  if r.available then .ok (r.zadd k x) else .error ()

/-- A fallible `EXPIRE` (the TTL itself touches no modelled state). -/
def RedisState.expireE (r : RedisState) (_k : CacheKey) (_ttl : Nat) : Except Unit RedisState :=
  if r.available then .ok r else .error ()

/-- Model of `_get_celebrity_tweets` with fallible cache reads. -/
def get_celebrity_tweetsE (s : Settings) (db : Db) (r : RedisState) (user_id limit : Nat) :
    Except Unit (List Nat) :=
  let celebrity_ids := celebrityFollowingIds s db user_id
  if celebrity_ids = [] then .ok []
  else celebrity_ids.foldlM (fun acc celeb_id => do
    let ids ← r.zrevrangeE (.celebrity_tweets celeb_id) 0 (limit : Int)
    pure (acc ++ ids)) []

/-- Model of `_rebuild_timeline` with fallible cache writes. -/
def rebuild_timelineE (s : Settings) (db : Db) (r : RedisState) (user_id limit : Nat) :
    Except Unit (List Nat × RedisState) :=
  let following_ids := followingIds db user_id
  if following_ids = [] then .ok ([], r)
  else
    let tweet_ids := rebuildIds db user_id limit
    if tweet_ids = [] then .ok (tweet_ids, r)
    else do
      let r1 ← tweet_ids.foldlM (fun acc tid => acc.zaddE (.timeline user_id) tid) r
      let r2 ← r1.expireE (.timeline user_id) s.timeline_cache_ttl
      pure (tweet_ids, r2)

/-- Model of `get_home_timeline` with fallible cache access: any raised cache
error propagates to the caller, exactly as in the source (no
`try`/`except` around any redis call on the read path). -/
def get_home_timelineE (s : Settings) (db : Db) (r : RedisState) (user_id limit : Nat)
    (cursor : Option String) : Except Unit (TimelineResponse × RedisState) := do
  let cached_tweet_ids ← r.zrevrangeE (.timeline user_id) 0 ((limit : Int) + 50)
  let celebrity_tweet_ids ← get_celebrity_tweetsE s db r user_id limit
  let merged := (cached_tweet_ids ++ celebrity_tweet_ids).dedup
  let rebuilt ←
    if merged = [] then rebuild_timelineE s db r user_id (limit * 2) else pure (merged, r)
  let all_tweet_ids := rebuilt.1
  let r1 := rebuilt.2
  let filtered := applyCursor (parse_cursor cursor) all_tweet_ids
  let page_ids := (sortDescNat filtered).take (limit + 1)
  let has_more := decide (limit < page_ids.length)
  let final_ids := if has_more then page_ids.take limit else page_ids
  let tweets := fetch_tweets db final_ids
  let next_cursor := if has_more then tweets.getLast?.map (fun t => toString t.id) else none
  pure ({ tweets := tweets, next_cursor := next_cursor, has_more := has_more }, r1)

/-- The per-entry effect of one push fan-out / celebrity-cache write:
insert the id, then keep only the `window` largest members. -/
def trimInsert (window x : Nat) (l : List Nat) : List Nat :=
  let inserted := zsetInsert x l
  inserted.drop (inserted.length - window)

/-- Invariant: every Publish Cache entry holds at most `bound` ids. -/
def timelineBounded (bound : Nat) (r : RedisState) : Prop :=
  ∀ uid : Nat, (r.getSet (.timeline uid)).length ≤ bound

instance : IsTotal Nat (fun a b => b ≤ a) := ⟨fun a b => le_total b a⟩

instance : IsTrans Nat (fun a b => b ≤ a) := ⟨fun _ _ _ h h' => le_trans h' h⟩

instance : IsTotal Tweet (fun a b => b.id ≤ a.id) := ⟨fun a b => le_total b.id a.id⟩

instance : IsTrans Tweet (fun a b => b.id ≤ a.id) := ⟨fun _ _ _ h h' => le_trans h' h⟩

/-! ### Concrete scenarios used by the per-claim theorems -/

/-- An empty, reachable cache state. -/
def rEmpty : RedisState := { sets := [], published := [], available := true }

/-- User 50 follows the regular (1 follower) user 100, who has posted
tweets with ids 1..25. -/
def dbC1 : Db :=
  { tweets := (List.range 25).map (fun i =>
      { id := 25 - i, author_id := 100, reply_to_id := none, content := "" })
    users := [⟨50, 0⟩, ⟨100, 1⟩]
    follows := [⟨50, 100⟩] }

/-- The Publish Cache of user 50 holding ids 1..25. -/
def rC1 : RedisState :=
  { sets := [(.timeline 50, (List.range 25).map (fun i => i + 1))]
    published := []
    available := true }

/-- First home-timeline page of the pagination scenario. -/
def pageC1a : TimelineResponse := (get_home_timeline defaultSettings dbC1 rC1 50 10 none).1

/-- Second page, requested with cursor "16". -/
def pageC1b : TimelineResponse := (get_home_timeline defaultSettings dbC1 rC1 50 10 (some "16")).1

/-- Third page, requested with the cursor returned by the second page. -/
def pageC1c : TimelineResponse :=
  (get_home_timeline defaultSettings dbC1 rC1 50 10 pageC1b.next_cursor).1

/-- User 50 follows user 100, who has 801 posted tweets (ids 1..801). -/
def dbC3 : Db :=
  { tweets := (List.range 801).map (fun i =>
      { id := 801 - i, author_id := 100, reply_to_id := none, content := "" })
    users := [⟨50, 0⟩, ⟨100, 1⟩]
    follows := [⟨50, 100⟩] }

/-- User 50 follows the celebrity user 100 (followers_count 5000 =
threshold), who authored tweet 7; both cache families are empty (e.g.
after TTL expiry). -/
def dbC4 : Db :=
  { tweets := [{ id := 7, author_id := 100, reply_to_id := none, content := "" }]
    users := [⟨50, 0⟩, ⟨100, 5000⟩]
    follows := [⟨50, 100⟩] }

/-- A regular author with zero followers. -/
def dbNoFollowers : Db := { tweets := [], users := [⟨100, 0⟩], follows := [] }

/-- A cache state with data whose connection is down. -/
def rDown : RedisState :=
  { sets := [(.timeline 50, [1, 2, 3])], published := [], available := false }

/-- A regular author (user 100, 2 followers: users 2 and 3). -/
def dbPush : Db :=
  { tweets := [], users := [⟨100, 2⟩, ⟨2, 0⟩, ⟨3, 0⟩]
    follows := [⟨2, 100⟩, ⟨3, 100⟩] }

/-- A fresh tweet by user 100. -/
def tw5 : Tweet := { id := 5, author_id := 100, reply_to_id := none, content := "" }

/-- User 100 viewed as a regular publisher. -/
def authorPush : User := ⟨100, 2⟩

/-- User 100 viewed as a celebrity publisher. -/
def authorCeleb : User := ⟨100, 5000⟩

/-! ### Basic lemmas about the sorted-set store -/

theorem lookupSet_storeSet_self (sets : List (CacheKey × List Nat)) (k : CacheKey)
    (v : List Nat) : lookupSet (storeSet sets k v) k = v := by
  induction sets with
  | nil => simp [storeSet, lookupSet]
  | cons p rest ih =>
    obtain ⟨k', w⟩ := p
    by_cases h : k' = k <;> simp [storeSet, lookupSet, h, ih]

theorem lookupSet_storeSet_ne (sets : List (CacheKey × List Nat)) {k k' : CacheKey}
    (v : List Nat) (h : k' ≠ k) : lookupSet (storeSet sets k v) k' = lookupSet sets k' := by
  induction sets with
  | nil => simp [storeSet, lookupSet, Ne.symm h]
  | cons p rest ih =>
    obtain ⟨k0, w⟩ := p
    by_cases hk : k0 = k
    · subst hk
      simp [storeSet, lookupSet, Ne.symm h]
    · simp only [storeSet, if_neg hk, lookupSet, ih]

theorem getSet_zadd_self (r : RedisState) (k : CacheKey) (x : Nat) :
    (r.zadd k x).getSet k = zsetInsert x (r.getSet k) := by
  simp [RedisState.zadd, RedisState.getSet, lookupSet_storeSet_self]

theorem getSet_zadd_ne (r : RedisState) {k k' : CacheKey} (x : Nat) (h : k' ≠ k) :
    (r.zadd k x).getSet k' = r.getSet k' := by
  simp [RedisState.zadd, RedisState.getSet, lookupSet_storeSet_ne _ _ h]

theorem getSet_zrem_self (r : RedisState) (k : CacheKey) (x : Nat) :
    (r.zrem k x).getSet k = (r.getSet k).filter (fun y => y ≠ x) := by
  simp [RedisState.zrem, RedisState.getSet, lookupSet_storeSet_self]

theorem getSet_zrem_ne (r : RedisState) {k k' : CacheKey} (x : Nat) (h : k' ≠ k) :
    (r.zrem k x).getSet k' = r.getSet k' := by
  simp [RedisState.zrem, RedisState.getSet, lookupSet_storeSet_ne _ _ h]

theorem getSet_zremrangebyrank_self (r : RedisState) (k : CacheKey) (a b : Int) :
    (r.zremrangebyrank k a b).getSet k = zremrangebyrankList (r.getSet k) a b := by
  simp [RedisState.zremrangebyrank, RedisState.getSet, lookupSet_storeSet_self]

theorem getSet_zremrangebyrank_ne (r : RedisState) {k k' : CacheKey} (a b : Int) (h : k' ≠ k) :
    (r.zremrangebyrank k a b).getSet k' = r.getSet k' := by
  simp [RedisState.zremrangebyrank, RedisState.getSet, lookupSet_storeSet_ne _ _ h]

theorem getSet_publish (r : RedisState) (m : RealtimeMessage) (k : CacheKey) :
    (r.publish m).getSet k = r.getSet k := rfl

theorem published_zadd (r : RedisState) (k : CacheKey) (x : Nat) :
    (r.zadd k x).published = r.published := rfl

theorem published_zrem (r : RedisState) (k : CacheKey) (x : Nat) :
    (r.zrem k x).published = r.published := rfl

theorem published_zremrangebyrank (r : RedisState) (k : CacheKey) (a b : Int) :
    (r.zremrangebyrank k a b).published = r.published := rfl

theorem published_publish (r : RedisState) (m : RealtimeMessage) :
    (r.publish m).published = r.published ++ [m] := rfl

theorem available_zadd (r : RedisState) (k : CacheKey) (x : Nat) :
    (r.zadd k x).available = r.available := rfl

/-! ### Lemmas about `zsetInsert` -/

theorem mem_zsetInsert {x y : Nat} : ∀ {l : List Nat}, y ∈ zsetInsert x l ↔ y = x ∨ y ∈ l := by
  intro l
  induction l with
  | nil => simp [zsetInsert]
  | cons z zs ih =>
    by_cases h1 : x < z
    · simp only [zsetInsert, if_pos h1, List.mem_cons]
    · by_cases h2 : x = z
      · simp only [zsetInsert, if_neg h1, if_pos h2, List.mem_cons]
        subst h2
        tauto
      · simp only [zsetInsert, if_neg h1, if_neg h2, List.mem_cons, ih]
        tauto

theorem self_mem_zsetInsert (x : Nat) (l : List Nat) : x ∈ zsetInsert x l :=
  mem_zsetInsert.mpr (Or.inl rfl)

theorem zsetInsert_sorted {x : Nat} : ∀ {l : List Nat},
    l.Sorted (· < ·) → (zsetInsert x l).Sorted (· < ·) := by
  intro l
  induction l with
  | nil => simp [zsetInsert]
  | cons z zs ih =>
    intro hs
    rw [List.sorted_cons] at hs
    obtain ⟨hz, hzs⟩ := hs
    by_cases h1 : x < z
    · simp only [zsetInsert, if_pos h1]
      rw [List.sorted_cons]
      refine ⟨?_, ?_⟩
      · intro b hb
        rcases List.mem_cons.mp hb with hb | hb
        · exact hb ▸ h1
        · exact lt_trans h1 (hz b hb)
      · rw [List.sorted_cons]
        exact ⟨hz, hzs⟩
    · by_cases h2 : x = z
      · simp only [zsetInsert, if_neg h1, if_pos h2]
        rw [List.sorted_cons]
        exact ⟨hz, hzs⟩
      · simp only [zsetInsert, if_neg h1, if_neg h2]
        rw [List.sorted_cons]
        refine ⟨?_, ih hzs⟩
        intro b hb
        rcases mem_zsetInsert.mp hb with hb | hb
        · omega
        · exact hz b hb

theorem zsetInsert_of_mem {x : Nat} : ∀ {l : List Nat},
    l.Sorted (· < ·) → x ∈ l → zsetInsert x l = l := by
  intro l
  induction l with
  | nil => simp
  | cons z zs ih =>
    intro hs hm
    rw [List.sorted_cons] at hs
    rcases List.mem_cons.mp hm with hm | hm
    · subst hm
      simp [zsetInsert]
    · have hzx : z < x := hs.1 x hm
      have h1 : ¬ x < z := by omega
      have h2 : ¬ x = z := by omega
      simp only [zsetInsert, if_neg h1, if_neg h2, ih hs.2 hm]

theorem zsetInsert_of_forall_lt {x : Nat} : ∀ {l : List Nat},
    (∀ y ∈ l, x < y) → zsetInsert x l = x :: l := by
  intro l
  cases l with
  | nil => simp [zsetInsert]
  | cons z zs =>
    intro h
    have : x < z := h z (List.mem_cons_self z zs)
    simp [zsetInsert, this]

theorem length_zsetInsert_le (x : Nat) : ∀ (l : List Nat),
    (zsetInsert x l).length ≤ l.length + 1 := by
  intro l
  induction l with
  | nil => simp [zsetInsert]
  | cons z zs ih =>
    by_cases h1 : x < z
    · simp [zsetInsert, h1]
    · by_cases h2 : x = z
      · simp [zsetInsert, h1, h2]
      · simp only [zsetInsert, if_neg h1, if_neg h2, List.length_cons]
        omega

/-! ### The trim pattern `ZREMRANGEBYRANK key 0 (-window - 1)` keeps the
`window` members with the highest scores -/

theorem sliceIdx_keepTop_none {window n : Nat} (h : n ≤ window) :
    sliceIdx n 0 (-(window : Int) - 1) = none := by
  simp only [sliceIdx]
  split_ifs <;> first | rfl | (exfalso; omega)

theorem sliceIdx_keepTop_some {window n : Nat} (h : window < n) :
    sliceIdx n 0 (-(window : Int) - 1) = some (0, n - window - 1) := by
  simp only [sliceIdx]
  split_ifs <;>
    first
      | (exfalso; omega)
      | (simp only [Option.some.injEq, Prod.mk.injEq]; constructor <;> omega)

theorem zremrangebyrankList_keepTop (window : Nat) (l : List Nat) :
    zremrangebyrankList l 0 (-(window : Int) - 1) = l.drop (l.length - window) := by
  by_cases hlen : l.length ≤ window
  · rw [zremrangebyrankList, sliceIdx_keepTop_none hlen]
    have : l.length - window = 0 := by omega
    rw [this, List.drop_zero]
  · rw [zremrangebyrankList, sliceIdx_keepTop_some (by omega)]
    simp only [List.take_zero, List.nil_append]
    congr 1
    omega

/-! ### Reading a whole set with `ZREVRANGE key 0 stop` -/

theorem zrevrangeList_nil (stop : Int) : zrevrangeList [] 0 stop = [] := by
  simp [zrevrangeList, sliceIdx]

theorem zrevrangeList_ne_nil {l : List Nat} (hl : l ≠ []) {stop : Int} (hs : 0 ≤ stop) :
    zrevrangeList l 0 stop ≠ [] := by
  have hn : 1 ≤ l.length := List.length_pos.mpr hl
  have he : min stop ((l.length : Int) - 1) ≥ 0 := le_min hs (by omega)
  have hsome : sliceIdx l.length 0 stop =
      some (0, (min stop ((l.length : Int) - 1)).toNat) := by
    simp only [sliceIdx, if_neg (by omega : ¬ (0 : Int) < 0), if_neg (not_lt.mpr hs),
      max_eq_right (by omega : (0 : Int) ≤ 0)]
    rw [if_neg (by omega)]
    rfl
  simp only [zrevrangeList, hsome, List.drop_zero]
  intro hc
  rcases List.take_eq_nil_iff.mp hc with hc | hc
  · omega
  · exact hl (List.reverse_eq_nil_iff.mp hc)

theorem zrevrange_empty_iff {l : List Nat} {stop : Int} (hs : 0 ≤ stop) :
    zrevrangeList l 0 stop = [] ↔ l = [] := by
  constructor
  · intro h
    by_contra hl
    exact zrevrangeList_ne_nil hl hs h
  · intro h
    rw [h]
    exact zrevrangeList_nil stop

/-! ### Properties of the insert-then-trim cache write -/

theorem trimInsert_length_le (w x : Nat) (l : List Nat) : (trimInsert w x l).length ≤ w := by
  simp only [trimInsert, List.length_drop]
  omega

theorem trimInsert_sorted {w x : Nat} {l : List Nat} (h : l.Sorted (· < ·)) :
    (trimInsert w x l).Sorted (· < ·) :=
  List.Pairwise.sublist (List.drop_sublist _ _) (zsetInsert_sorted h)

theorem trimInsert_suffix (w x : Nat) (l : List Nat) : trimInsert w x l <:+ zsetInsert x l :=
  List.drop_suffix _ _

theorem trimInsert_idem {w x : Nat} {l : List Nat} (h : l.Sorted (· < ·)) :
    trimInsert w x (trimInsert w x l) = trimInsert w x l := by
  have hAs : (zsetInsert x l).Sorted (· < ·) := zsetInsert_sorted h
  have hxA : x ∈ zsetInsert x l := self_mem_zsetInsert x l
  by_cases hle : (zsetInsert x l).length ≤ w
  · have h1 : trimInsert w x l = zsetInsert x l := by
      simp only [trimInsert]
      have h0 : (zsetInsert x l).length - w = 0 := by omega
      rw [h0, List.drop_zero]
    rw [h1, trimInsert, zsetInsert_of_mem hAs hxA]
    have h0 : (zsetInsert x l).length - w = 0 := by omega
    rw [h0, List.drop_zero]
  · have h1 : trimInsert w x l =
        (zsetInsert x l).drop ((zsetInsert x l).length - w) := by
      simp only [trimInsert]
    have he1len : (trimInsert w x l).length = w := by
      rw [h1, List.length_drop]
      omega
    have he1sorted : (trimInsert w x l).Sorted (· < ·) := trimInsert_sorted h
    by_cases hx : x ∈ trimInsert w x l
    · rw [trimInsert, zsetInsert_of_mem he1sorted hx, he1len]
      have h0 : w - w = 0 := by omega
      rw [h0, List.drop_zero]
    · have hxlt : ∀ y ∈ trimInsert w x l, x < y := by
        intro y hy
        have hsplit := List.take_append_drop ((zsetInsert x l).length - w) (zsetInsert x l)
        have hxtake : x ∈ (zsetInsert x l).take ((zsetInsert x l).length - w) := by
          have hmem := hxA
          rw [← hsplit] at hmem
          rcases List.mem_append.mp hmem with h' | h'
          · exact h'
          · exact absurd (h1 ▸ h') hx
        have hp : List.Pairwise (· < ·)
            ((zsetInsert x l).take ((zsetInsert x l).length - w) ++
              (zsetInsert x l).drop ((zsetInsert x l).length - w)) := by
          rw [hsplit]
          exact hAs
        exact (List.pairwise_append.mp hp).2.2 x hxtake y (h1 ▸ hy)
      rw [trimInsert, zsetInsert_of_forall_lt hxlt]
      simp only [List.length_cons, he1len]
      have h0 : w + 1 - w = 1 := by omega
      rw [h0]
      simp

/-! ### The push fan-out loop, key by key -/

theorem getSet_fanoutStep_self (s : Settings) (tid : Nat) (r : RedisState) (f : Nat) :
    (fanoutStep s tid r f).getSet (.timeline f) =
      trimInsert s.timeline_max_size tid (r.getSet (.timeline f)) := by
  simp only [fanoutStep, getSet_zremrangebyrank_self, getSet_zadd_self,
    zremrangebyrankList_keepTop, trimInsert]

theorem getSet_fanoutStep_ne (s : Settings) (tid : Nat) (r : RedisState) (f : Nat)
    {k : CacheKey} (h : k ≠ CacheKey.timeline f) :
    (fanoutStep s tid r f).getSet k = r.getSet k := by
  simp only [fanoutStep, getSet_zremrangebyrank_ne _ _ _ h, getSet_zadd_ne _ _ h]

theorem published_fanoutStep (s : Settings) (tid : Nat) (r : RedisState) (f : Nat) :
    (fanoutStep s tid r f).published = r.published := rfl

theorem getSet_fanoutFold_ne (s : Settings) (tid : Nat) :
    ∀ (l : List Nat) (r : RedisState) {k : CacheKey},
      (∀ f ∈ l, k ≠ CacheKey.timeline f) →
      (l.foldl (fanoutStep s tid) r).getSet k = r.getSet k := by
  intro l
  induction l with
  | nil => intro r k _; rfl
  | cons a l ih =>
    intro r k h
    simp only [List.foldl_cons]
    rw [ih _ (fun f hf => h f (List.mem_cons_of_mem a hf)),
      getSet_fanoutStep_ne _ _ _ _ (h a (List.mem_cons_self a l))]

theorem getSet_fanoutFold_mem (s : Settings) (tid : Nat) :
    ∀ {l : List Nat}, l.Nodup → ∀ {f : Nat}, f ∈ l → ∀ (r : RedisState),
      (l.foldl (fanoutStep s tid) r).getSet (.timeline f) =
        trimInsert s.timeline_max_size tid (r.getSet (.timeline f)) := by
  intro l
  induction l with
  | nil => intro _ f hf; cases hf
  | cons a l ih =>
    intro hnd f hf r
    rw [List.nodup_cons] at hnd
    simp only [List.foldl_cons]
    rcases List.mem_cons.mp hf with hf | hf
    · subst hf
      rw [getSet_fanoutFold_ne s tid l _ (fun g hg => ?_), getSet_fanoutStep_self]
      intro hkeq
      apply hnd.1
      cases hkeq
      exact hg
    · rw [ih hnd.2 hf, getSet_fanoutStep_ne]
      intro hkeq
      apply hnd.1
      cases hkeq
      exact hf

theorem published_fanoutFold (s : Settings) (tid : Nat) :
    ∀ (l : List Nat) (r : RedisState),
      (l.foldl (fanoutStep s tid) r).published = r.published := by
  intro l
  induction l with
  | nil => intro r; rfl
  | cons a l ih =>
    intro r
    simp only [List.foldl_cons, ih, published_fanoutStep]

/-! ### The rebuild loop of `zadd`s on one key -/

theorem getSet_zaddFold_self (k : CacheKey) :
    ∀ (l : List Nat) (r : RedisState),
      ((l.foldl (fun acc tid => acc.zadd k tid) r)).getSet k =
        l.foldl (fun acc tid => zsetInsert tid acc) (r.getSet k) := by
  intro l
  induction l with
  | nil => intro r; rfl
  | cons a l ih =>
    intro r
    simp only [List.foldl_cons, ih, getSet_zadd_self]

theorem getSet_zaddFold_ne (k : CacheKey) :
    ∀ (l : List Nat) (r : RedisState) {k' : CacheKey}, k' ≠ k →
      ((l.foldl (fun acc tid => acc.zadd k tid) r)).getSet k' = r.getSet k' := by
  intro l
  induction l with
  | nil => intro r _ _; rfl
  | cons a l ih =>
    intro r k' h
    simp only [List.foldl_cons, ih _ h, getSet_zadd_ne _ _ h]

theorem published_zaddFold (k : CacheKey) :
    ∀ (l : List Nat) (r : RedisState),
      ((l.foldl (fun acc tid => acc.zadd k tid) r)).published = r.published := by
  intro l
  induction l with
  | nil => intro r; rfl
  | cons a l ih =>
    intro r
    simp only [List.foldl_cons, ih, published_zadd]

theorem available_zaddFold (k : CacheKey) :
    ∀ (l : List Nat) (r : RedisState),
      ((l.foldl (fun acc tid => acc.zadd k tid) r)).available = r.available := by
  intro l
  induction l with
  | nil => intro r; rfl
  | cons a l ih =>
    intro r
    simp only [List.foldl_cons, ih, available_zadd]

/-! ### The retract loop of `zrem`s -/

theorem mem_getSet_zrem (r : RedisState) (k0 k : CacheKey) (x y : Nat) :
    y ∈ (r.zrem k0 x).getSet k → y ∈ r.getSet k := by
  by_cases h : k = k0
  · subst h
    rw [getSet_zrem_self]
    intro hy
    exact (List.mem_filter.mp hy).1
  · rw [getSet_zrem_ne _ _ h]
    exact id

theorem mem_getSet_zremFold (tid : Nat) :
    ∀ (l : List Nat) (r : RedisState) {k : CacheKey} {y : Nat},
      y ∈ ((l.foldl (fun acc fid => acc.zrem (.timeline fid) tid) r)).getSet k →
      y ∈ r.getSet k := by
  intro l
  induction l with
  | nil => intro r k y; exact id
  | cons a l ih =>
    intro r k y hy
    simp only [List.foldl_cons] at hy
    exact mem_getSet_zrem _ _ _ _ _ (ih _ hy)

theorem not_mem_zremFold (tid : Nat) :
    ∀ {l : List Nat} {f : Nat}, f ∈ l → ∀ (r : RedisState),
      tid ∉ ((l.foldl (fun acc fid => acc.zrem (.timeline fid) tid) r)).getSet (.timeline f) := by
  intro l
  induction l with
  | nil => intro f hf; cases hf
  | cons a l ih =>
    intro f hf r
    rcases List.mem_cons.mp hf with hf | hf
    · subst hf
      simp only [List.foldl_cons]
      intro hmem
      have h1 := mem_getSet_zremFold tid l _ hmem
      rw [getSet_zrem_self] at h1
      simp only [List.mem_filter, decide_eq_true_eq] at h1
      exact h1.2 rfl
    · simp only [List.foldl_cons]
      exact ih hf _

theorem published_zremFold (tid : Nat) :
    ∀ (l : List Nat) (r : RedisState),
      ((l.foldl (fun acc fid => acc.zrem (.timeline fid) tid) r)).published = r.published := by
  intro l
  induction l with
  | nil => intro r; rfl
  | cons a l ih =>
    intro r
    simp only [List.foldl_cons, ih, published_zrem]

/-! ### Celebrity-cache reads over empty entries -/

theorem get_celebrity_tweets_of_empty (s : Settings) (db : Db) (r : RedisState)
    (user_id limit : Nat)
    (h : ∀ c ∈ celebrityFollowingIds s db user_id, r.getSet (.celebrity_tweets c) = []) :
    get_celebrity_tweets s db r user_id limit = [] := by
  have main : ∀ (ids : List Nat),
      (∀ c ∈ ids, r.getSet (.celebrity_tweets c) = []) → ∀ (acc : List Nat),
      ids.foldl
        (fun acc celeb_id => acc ++ r.zrevrange (.celebrity_tweets celeb_id) 0 (limit : Int))
        acc = acc := by
    intro ids
    induction ids with
    | nil => intro _ acc; rfl
    | cons a ids ih =>
      intro hh acc
      simp only [List.foldl_cons]
      rw [show r.zrevrange (.celebrity_tweets a) 0 (limit : Int) = [] from ?_, List.append_nil]
      · exact ih (fun c hc => hh c (List.mem_cons_of_mem a hc)) acc
      · rw [RedisState.zrevrange, hh a (List.mem_cons_self a ids)]
        exact zrevrangeList_nil _
  by_cases hc : celebrityFollowingIds s db user_id = []
  · simp [get_celebrity_tweets, hc]
  · simp only [get_celebrity_tweets, if_neg hc]
    exact main _ h []

/-! ### Sorting lemmas -/

theorem sortDescNat_sorted (l : List Nat) : (sortDescNat l).Sorted (fun a b => b ≤ a) :=
  List.sorted_insertionSort _ l

theorem sortDescNat_eq_self {l : List Nat} (h : l.Sorted (fun a b => b ≤ a)) :
    sortDescNat l = l :=
  List.Sorted.insertionSort_eq h

theorem sortDescNat_perm (l : List Nat) : (sortDescNat l).Perm l :=
  List.perm_insertionSort _ l

theorem sortDescNat_nodup {l : List Nat} (h : l.Nodup) : (sortDescNat l).Nodup :=
  ((sortDescNat_perm l).nodup_iff).mpr h

theorem rebuildIds_sorted (db : Db) (user_id n : Nat) :
    (rebuildIds db user_id n).Sorted (fun a b => b ≤ a) :=
  List.Pairwise.sublist (List.take_sublist _ _) (sortDescNat_sorted _)

theorem rebuildIds_nodup {db : Db} (h : (db.tweets.map Tweet.id).Nodup) (user_id n : Nat) :
    (rebuildIds db user_id n).Nodup := by
  apply List.Nodup.sublist (List.take_sublist _ _)
  apply sortDescNat_nodup
  exact List.Nodup.sublist (List.Sublist.map _ (List.filter_sublist _)) h

theorem rebuildIds_strictDesc {db : Db} (h : (db.tweets.map Tweet.id).Nodup)
    (user_id n : Nat) : (rebuildIds db user_id n).Pairwise (fun a b => b < a) := by
  have h1 := rebuildIds_sorted db user_id n
  have h2 := rebuildIds_nodup h user_id n
  exact (List.Pairwise.and h1 h2).imp (fun hab => lt_of_le_of_ne hab.1 (Ne.symm hab.2))

theorem mem_rebuildIds_exists (db : Db) (user_id n : Nat) {i : Nat}
    (hi : i ∈ rebuildIds db user_id n) : ∃ t ∈ db.tweets, t.id = i := by
  unfold rebuildIds at hi
  have h1 := List.mem_of_mem_take hi
  rw [sortDescNat, List.mem_insertionSort] at h1
  obtain ⟨t, htf, htid⟩ := List.mem_map.mp h1
  exact ⟨t, List.mem_of_mem_filter htf, htid⟩

/-! ### Folding a strictly descending id list into an empty entry -/

theorem foldl_zsetInsert_strictDesc :
    ∀ {l : List Nat}, l.Pairwise (fun a b => b < a) →
      ∀ {acc : List Nat}, acc.Sorted (· < ·) → (∀ y ∈ l, ∀ z ∈ acc, y < z) →
      l.foldl (fun acc tid => zsetInsert tid acc) acc = l.reverse ++ acc := by
  intro l
  induction l with
  | nil =>
    intro _ acc _ _
    simp
  | cons a l ih =>
    intro hp acc hacc hlt
    rw [List.pairwise_cons] at hp
    simp only [List.foldl_cons]
    have hins : zsetInsert a acc = a :: acc :=
      zsetInsert_of_forall_lt (fun z hz => hlt a (List.mem_cons_self a l) z hz)
    have hsorted : (a :: acc).Sorted (· < ·) := by
      rw [List.sorted_cons]
      exact ⟨fun b hb => hlt a (List.mem_cons_self a l) b hb, hacc⟩
    have hlt2 : ∀ y ∈ l, ∀ z ∈ a :: acc, y < z := by
      intro y hy z hz
      rcases List.mem_cons.mp hz with hz | hz
      · exact hz ▸ hp.1 y hy
      · exact lt_trans (hp.1 y hy) (hlt a (List.mem_cons_self a l) z hz)
    rw [hins, ih hp.2 hsorted hlt2]
    simp

/-! ### Characterising `_rebuild_timeline` -/

theorem rebuildIds_of_no_following {db : Db} {user_id : Nat}
    (h : followingIds db user_id = []) (n : Nat) : rebuildIds db user_id n = [] := by
  unfold rebuildIds
  rw [h]
  simp [sortDescNat]

theorem rebuild_timeline_fst (s : Settings) (db : Db) (r : RedisState) (user_id n : Nat) :
    (rebuild_timeline s db r user_id n).1 = rebuildIds db user_id n := by
  by_cases h1 : followingIds db user_id = []
  · simp [rebuild_timeline, h1, rebuildIds_of_no_following h1]
  · by_cases h2 : rebuildIds db user_id n = []
    · simp [rebuild_timeline, h1, h2]
    · simp [rebuild_timeline, h1, h2]

theorem rebuild_timeline_getSet_self (s : Settings) (db : Db) (r : RedisState)
    (user_id n : Nat) :
    (rebuild_timeline s db r user_id n).2.getSet (.timeline user_id) =
      (rebuildIds db user_id n).foldl (fun acc tid => zsetInsert tid acc)
        (r.getSet (.timeline user_id)) := by
  by_cases h1 : followingIds db user_id = []
  · simp [rebuild_timeline, h1, rebuildIds_of_no_following h1]
  · by_cases h2 : rebuildIds db user_id n = []
    · simp [rebuild_timeline, h1, h2]
    · simp only [rebuild_timeline, if_neg h1, if_neg h2]
      exact getSet_zaddFold_self _ _ _

theorem rebuild_timeline_getSet_ne (s : Settings) (db : Db) (r : RedisState)
    (user_id n : Nat) {k : CacheKey} (h : k ≠ CacheKey.timeline user_id) :
    (rebuild_timeline s db r user_id n).2.getSet k = r.getSet k := by
  by_cases h1 : followingIds db user_id = []
  · simp [rebuild_timeline, h1]
  · by_cases h2 : rebuildIds db user_id n = []
    · simp [rebuild_timeline, h1, h2]
    · simp only [rebuild_timeline, if_neg h1, if_neg h2]
      exact getSet_zaddFold_ne _ _ _ h

theorem rebuild_timeline_published (s : Settings) (db : Db) (r : RedisState)
    (user_id n : Nat) :
    (rebuild_timeline s db r user_id n).2.published = r.published := by
  by_cases h1 : followingIds db user_id = []
  · simp [rebuild_timeline, h1]
  · by_cases h2 : rebuildIds db user_id n = []
    · simp [rebuild_timeline, h1, h2]
    · simp only [rebuild_timeline, if_neg h1, if_neg h2]
      exact published_zaddFold _ _ _

/-! ### Resolving ids that all exist in the store -/

theorem fetch_tweets_map_id {db : Db} :
    ∀ {ids : List Nat}, (∀ i ∈ ids, ∃ t ∈ db.tweets, t.id = i) →
      (fetch_tweets db ids).map Tweet.id = ids := by
  intro ids
  induction ids with
  | nil => intro _; rfl
  | cons i ids ih =>
    intro h
    obtain ⟨t, ht, hid⟩ := h i (List.mem_cons_self i ids)
    have hsome : (db.tweets.find? (fun t => t.id == i)).isSome := by
      rw [List.find?_isSome]
      exact ⟨t, ht, by simp [hid]⟩
    obtain ⟨t1, ht1⟩ := Option.isSome_iff_exists.mp hsome
    have hid1 : t1.id = i := by
      have := List.find?_some ht1
      simpa using this
    simp only [fetch_tweets, List.filterMap_cons, ht1, List.map_cons, hid1]
    exact congrArg (i :: ·) (ih (fun j hj => h j (List.mem_cons_of_mem i hj)))

/-! ### The fallible read path agrees with the pure one whenever the
cache answers -/

theorem except_bind_ok {A B : Type} (a : A) (f : A → Except Unit B) :
    (Except.ok a : Except Unit A) >>= f = f a := rfl

theorem foldlM_zaddE_ok (k : CacheKey) :
    ∀ (l : List Nat) (r : RedisState), r.available = true →
      l.foldlM (fun acc tid => RedisState.zaddE acc k tid) r =
        Except.ok (l.foldl (fun acc tid => RedisState.zadd acc k tid) r) := by
  intro l
  induction l with
  | nil => intro r _; rfl
  | cons a l ih =>
    intro r h
    rw [List.foldlM_cons]
    rw [show RedisState.zaddE r k a = Except.ok (r.zadd k a) from by
      rw [RedisState.zaddE, if_pos h]]
    rw [except_bind_ok, ih _ (by rw [available_zadd]; exact h)]
    rw [List.foldl_cons]

theorem get_celebrity_tweetsE_ok (s : Settings) (db : Db) (r : RedisState)
    (user_id limit : Nat) (h : r.available = true) :
    get_celebrity_tweetsE s db r user_id limit =
      Except.ok (get_celebrity_tweets s db r user_id limit) := by
  have haux : ∀ (ids : List Nat) (acc : List Nat),
      ids.foldlM (fun acc celeb_id => do
        let ids2 ← r.zrevrangeE (.celebrity_tweets celeb_id) 0 (limit : Int)
        pure (acc ++ ids2)) acc =
      Except.ok (ids.foldl
        (fun acc celeb_id => acc ++ r.zrevrange (.celebrity_tweets celeb_id) 0 (limit : Int))
        acc) := by
    intro ids
    induction ids with
    | nil => intro acc; rfl
    | cons a ids ih =>
      intro acc
      rw [List.foldlM_cons]
      rw [show (do
          let ids2 ← r.zrevrangeE (.celebrity_tweets a) 0 (limit : Int)
          pure (acc ++ ids2) : Except Unit (List Nat)) =
        Except.ok (acc ++ r.zrevrange (.celebrity_tweets a) 0 (limit : Int)) from by
        rw [show r.zrevrangeE (.celebrity_tweets a) 0 (limit : Int) =
            Except.ok (r.zrevrange (.celebrity_tweets a) 0 (limit : Int)) from by
          rw [RedisState.zrevrangeE, if_pos h]]
        rfl]
      rw [except_bind_ok, ih, List.foldl_cons]
  by_cases hc : celebrityFollowingIds s db user_id = []
  · simp [get_celebrity_tweetsE, get_celebrity_tweets, hc]
  · simp only [get_celebrity_tweetsE, get_celebrity_tweets, if_neg hc]
    exact haux _ []

theorem rebuild_timelineE_ok (s : Settings) (db : Db) (r : RedisState) (user_id n : Nat)
    (h : r.available = true) :
    rebuild_timelineE s db r user_id n = Except.ok (rebuild_timeline s db r user_id n) := by
  by_cases h1 : followingIds db user_id = []
  · simp [rebuild_timelineE, rebuild_timeline, h1]
  · by_cases h2 : rebuildIds db user_id n = []
    · simp [rebuild_timelineE, rebuild_timeline, h1, h2]
    · simp only [rebuild_timelineE, rebuild_timeline, if_neg h1, if_neg h2]
      rw [foldlM_zaddE_ok _ _ _ h, except_bind_ok]
      have hav : ((rebuildIds db user_id n).foldl
          (fun acc tid => acc.zadd (.timeline user_id) tid) r).available = true := by
        rw [available_zaddFold]
        exact h
      rw [show RedisState.expireE ((rebuildIds db user_id n).foldl
            (fun acc tid => acc.zadd (.timeline user_id) tid) r) (.timeline user_id)
            s.timeline_cache_ttl =
          Except.ok ((rebuildIds db user_id n).foldl
            (fun acc tid => acc.zadd (.timeline user_id) tid) r) from by
        rw [RedisState.expireE, if_pos hav]]
      rw [except_bind_ok]
      rfl

theorem get_home_timelineE_ok (s : Settings) (db : Db) (r : RedisState)
    (user_id limit : Nat) (cursor : Option String) (h : r.available = true) :
    get_home_timelineE s db r user_id limit cursor =
      Except.ok (get_home_timeline s db r user_id limit cursor) := by
  rw [get_home_timelineE, get_home_timeline, get_home_timeline_from]
  rw [show r.zrevrangeE (.timeline user_id) 0 ((limit : Int) + 50) =
      Except.ok (r.zrevrange (.timeline user_id) 0 ((limit : Int) + 50)) from by
    rw [RedisState.zrevrangeE, if_pos h]]
  rw [except_bind_ok, get_celebrity_tweetsE_ok s db r user_id limit h, except_bind_ok]
  by_cases hm : (r.zrevrange (.timeline user_id) 0 ((limit : Int) + 50) ++
      get_celebrity_tweets s db r user_id limit).dedup = []
  · rw [if_pos hm, if_pos hm, rebuild_timelineE_ok s db r user_id (limit * 2) h,
      except_bind_ok]
    rfl
  · rw [if_neg hm, if_neg hm]
    rfl


/-! ### The effect of `fanout_tweet` on each cache entry -/

theorem fanout_getSet_celeb_self (s : Settings) (db : Db) (r : RedisState) (t : Tweet)
    (a : User) (hcel : s.celebrity_threshold ≤ a.followers_count) :
    ((fanout_tweet s db r t a).2).getSet (.celebrity_tweets a.id) =
      trimInsert 200 t.id (r.getSet (.celebrity_tweets a.id)) := by
  rw [fanout_tweet, if_pos hcel]
  simp only [fanout_celebrity, publish_realtime, getSet_publish,
    getSet_zremrangebyrank_self, getSet_zadd_self]
  rw [show (-201 : Int) = -((200 : Nat) : Int) - 1 by norm_num, zremrangebyrankList_keepTop]
  rfl

theorem fanout_getSet_celeb_other (s : Settings) (db : Db) (r : RedisState) (t : Tweet)
    (a : User) (hcel : s.celebrity_threshold ≤ a.followers_count) {k : CacheKey}
    (hk : k ≠ CacheKey.celebrity_tweets a.id) :
    ((fanout_tweet s db r t a).2).getSet k = r.getSet k := by
  rw [fanout_tweet, if_pos hcel]
  simp only [fanout_celebrity, publish_realtime, getSet_publish,
    getSet_zremrangebyrank_ne _ _ _ hk, getSet_zadd_ne _ _ hk]

theorem fanout_getSet_regular_mem (s : Settings) (db : Db) (r : RedisState) (t : Tweet)
    (a : User) (hreg : ¬ s.celebrity_threshold ≤ a.followers_count)
    (hnd : (followerIds db a.id).Nodup) {f : Nat} (hf : f ∈ followerIds db a.id) :
    ((fanout_tweet s db r t a).2).getSet (.timeline f) =
      trimInsert s.timeline_max_size t.id (r.getSet (.timeline f)) := by
  rw [fanout_tweet, if_neg hreg]
  have hfne : followerIds db a.id ≠ [] := by
    intro hc
    rw [hc] at hf
    cases hf
  simp only [fanout_regular, if_neg hfne, publish_realtime, getSet_publish]
  exact getSet_fanoutFold_mem s t.id hnd hf r

theorem fanout_getSet_regular_other (s : Settings) (db : Db) (r : RedisState) (t : Tweet)
    (a : User) (hreg : ¬ s.celebrity_threshold ≤ a.followers_count) {k : CacheKey}
    (hk : ∀ f ∈ followerIds db a.id, k ≠ CacheKey.timeline f) :
    ((fanout_tweet s db r t a).2).getSet k = r.getSet k := by
  rw [fanout_tweet, if_neg hreg]
  by_cases hfe : followerIds db a.id = []
  · simp [fanout_regular, hfe]
  · simp only [fanout_regular, if_neg hfe, publish_realtime, getSet_publish]
    exact getSet_fanoutFold_ne s t.id _ _ hk

/-! ### Remaining helpers for the per-claim theorems -/

theorem get_home_timeline_snd (s : Settings) (db : Db) (r : RedisState)
    (user_id limit : Nat) (cursor : Option String) :
    (get_home_timeline s db r user_id limit cursor).2 =
      if (r.zrevrange (.timeline user_id) 0 ((limit : Int) + 50) ++
          get_celebrity_tweets s db r user_id limit).dedup = []
      then (rebuild_timeline s db r user_id (limit * 2)).2 else r := by
  by_cases hm : (r.zrevrange (.timeline user_id) 0 ((limit : Int) + 50) ++
      get_celebrity_tweets s db r user_id limit).dedup = []
  · simp [get_home_timeline, get_home_timeline_from, hm]
  · simp [get_home_timeline, get_home_timeline_from, hm]

theorem length_foldl_zsetInsert_le : ∀ (l acc : List Nat),
    (l.foldl (fun acc tid => zsetInsert tid acc) acc).length ≤ acc.length + l.length := by
  intro l
  induction l with
  | nil => intro acc; simp
  | cons a l ih =>
    intro acc
    simp only [List.foldl_cons, List.length_cons]
    calc (List.foldl (fun acc tid => zsetInsert tid acc) (zsetInsert a acc) l).length ≤
        (zsetInsert a acc).length + l.length := ih _
      _ ≤ acc.length + (l.length + 1) := by
        have := length_zsetInsert_le a acc
        omega

theorem applyCursor_none (ids : List Nat) : applyCursor none ids = ids := rfl

theorem applyCursor_zero (ids : List Nat) : applyCursor (some 0) ids = ids := by
  simp [applyCursor]

theorem tweetBeforeCursor_zero (t : Tweet) :
    tweetBeforeCursor (some 0) t = tweetBeforeCursor none t := by
  simp [tweetBeforeCursor]


/-! ## Per-claim theorems -/

/-- C1: for a user following exactly one push-model followee with posts
1..25 (ids held in the user's Publish Cache), `get_home_timeline` with
`limit = 10` and no cursor returns ids 25..16 with `has_more = true` and
`next_cursor = "16"`; the call with cursor `"16"` returns 15..6 with
`has_more = true`; the call with the cursor that page returned gives
5..1 with `has_more = false`; and no id appears on two pages. -/
theorem claim1_pagination :
    pageC1a.tweets.map Tweet.id = [25, 24, 23, 22, 21, 20, 19, 18, 17, 16] ∧
    pageC1a.has_more = true ∧
    pageC1a.next_cursor = some "16" ∧
    pageC1b.tweets.map Tweet.id = [15, 14, 13, 12, 11, 10, 9, 8, 7, 6] ∧
    pageC1b.has_more = true ∧
    pageC1c.tweets.map Tweet.id = [5, 4, 3, 2, 1] ∧
    pageC1c.has_more = false ∧
    (pageC1a.tweets.map Tweet.id).inter (pageC1b.tweets.map Tweet.id) = [] ∧
    (pageC1a.tweets.map Tweet.id).inter (pageC1c.tweets.map Tweet.id) = [] ∧
    (pageC1b.tweets.map Tweet.id).inter (pageC1c.tweets.map Tweet.id) = [] := by
  decide

/-- C2: `fanout_tweet` picks its strategy purely from the publisher's
follower count: at or above the threshold it touches only the
publisher's own Broadcast Cache entry (insert + trim to the 200-member
window) and no Publish Cache entry; below the threshold it inserts the
post id (with eviction) into every follower's Publish Cache entry and
touches no other entry. -/
theorem claim2_strategy_selection (s : Settings) (db : Db) (r : RedisState) (t : Tweet)
    (a : User) (hnd : (followerIds db a.id).Nodup) :
    (s.celebrity_threshold ≤ a.followers_count →
      (∀ k, k ≠ CacheKey.celebrity_tweets a.id →
        ((fanout_tweet s db r t a).2).getSet k = r.getSet k) ∧
      ((fanout_tweet s db r t a).2).getSet (.celebrity_tweets a.id) =
        trimInsert 200 t.id (r.getSet (.celebrity_tweets a.id))) ∧
    (a.followers_count < s.celebrity_threshold →
      (∀ f ∈ followerIds db a.id,
        ((fanout_tweet s db r t a).2).getSet (.timeline f) =
          trimInsert s.timeline_max_size t.id (r.getSet (.timeline f))) ∧
      (∀ k, (∀ f ∈ followerIds db a.id, k ≠ CacheKey.timeline f) →
        ((fanout_tweet s db r t a).2).getSet k = r.getSet k)) := by
  constructor
  · intro hcel
    exact ⟨fun k hk => fanout_getSet_celeb_other s db r t a hcel hk,
      fanout_getSet_celeb_self s db r t a hcel⟩
  · intro hreg
    have hreg2 : ¬ s.celebrity_threshold ≤ a.followers_count := by omega
    exact ⟨fun f hf => fanout_getSet_regular_mem s db r t a hreg2 hnd hf,
      fun k hk => fanout_getSet_regular_other s db r t a hreg2 hk⟩

/-- Witness for C2 at a concrete input: a regular publisher with
followers 2 and 3; follower 2's Publish Cache entry receives the post. -/
theorem claim2_witness :
    ((fanout_tweet defaultSettings dbPush rEmpty tw5 authorPush).2).getSet (.timeline 2) =
      trimInsert defaultSettings.timeline_max_size tw5.id (rEmpty.getSet (.timeline 2)) :=
  ((claim2_strategy_selection defaultSettings dbPush rEmpty tw5 authorPush (by decide)).2
    (by decide)).1 2 (by decide)

/-- C3 counterexample: with the default configuration
(`timeline_max_size = 800`), a cold-cache rebuild triggered by
`get_home_timeline` with `limit = 401` for a user whose followee has 801
top-level posts repopulates the (previously empty) Publish Cache entry
with 801 > 800 ids — a write performed by the core after which a Publish
Cache entry exceeds `timeline_max_size`, because `_rebuild_timeline`
performs no eviction. -/
theorem claim3_counterexample :
    ¬ timelineBounded defaultSettings.timeline_max_size
        (get_home_timeline defaultSettings dbC3 rEmpty 50 401 none).2 := by
  intro hb
  have h1 : (800 : Nat) <
      ((get_home_timeline defaultSettings dbC3 rEmpty 50 401 none).2.getSet
        (.timeline 50)).length := by decide
  have h2 := hb 50
  rw [show defaultSettings.timeline_max_size = 800 from rfl] at h2
  omega

/-- C3 amended: a push fan-out insert preserves the
`timeline_max_size` bound on every Publish Cache entry and evicts only
from the low-id end (each touched entry becomes a suffix of its
insert-extended ascending value); the cold-cache rebuild performs no
eviction and keeps the bound only when `2 * limit ≤ timeline_max_size`,
which the HTTP layer guarantees by capping `limit` at 100 against the
default maximum size 800. -/
theorem claim3_amended (s : Settings) (db : Db) (r : RedisState) (t : Tweet) (a : User)
    (user_id limit : Nat) (cursor : Option String)
    (hnd : (followerIds db a.id).Nodup)
    (hb : timelineBounded s.timeline_max_size r) :
    timelineBounded s.timeline_max_size (fanout_tweet s db r t a).2 ∧
    (∀ f : Nat,
      (fanout_tweet s db r t a).2.getSet (.timeline f) = r.getSet (.timeline f) ∨
      (fanout_tweet s db r t a).2.getSet (.timeline f) <:+
        zsetInsert t.id (r.getSet (.timeline f))) ∧
    (2 * limit ≤ s.timeline_max_size →
      timelineBounded s.timeline_max_size (get_home_timeline s db r user_id limit cursor).2) := by
  refine ⟨?_, ?_, ?_⟩
  · intro uid
    by_cases hcel : s.celebrity_threshold ≤ a.followers_count
    · rw [fanout_getSet_celeb_other s db r t a hcel (by intro h; cases h)]
      exact hb uid
    · by_cases hf : uid ∈ followerIds db a.id
      · rw [fanout_getSet_regular_mem s db r t a hcel hnd hf]
        exact trimInsert_length_le _ _ _
      · rw [fanout_getSet_regular_other s db r t a hcel (fun f hfm heq => ?_)]
        · exact hb uid
        · cases heq
          exact hf hfm
  · intro f
    by_cases hcel : s.celebrity_threshold ≤ a.followers_count
    · left
      exact fanout_getSet_celeb_other s db r t a hcel (by intro h; cases h)
    · by_cases hf : f ∈ followerIds db a.id
      · right
        rw [fanout_getSet_regular_mem s db r t a hcel hnd hf]
        exact trimInsert_suffix _ _ _
      · left
        refine fanout_getSet_regular_other s db r t a hcel (fun g hgm heq => ?_)
        cases heq
        exact hf hgm
  · intro h2L uid
    rw [get_home_timeline_snd]
    by_cases hm : (r.zrevrange (.timeline user_id) 0 ((limit : Int) + 50) ++
        get_celebrity_tweets s db r user_id limit).dedup = []
    · rw [if_pos hm]
      have hcached : r.zrevrange (.timeline user_id) 0 ((limit : Int) + 50) = [] := by
        have := (List.dedup_eq_nil _).mp hm
        exact (List.append_eq_nil.mp this).1
      have hempty : r.getSet (.timeline user_id) = [] := by
        rw [RedisState.zrevrange] at hcached
        exact (zrevrange_empty_iff (by omega)).mp hcached
      by_cases huid : uid = user_id
      · subst huid
        rw [rebuild_timeline_getSet_self, hempty]
        have h1 := length_foldl_zsetInsert_le (rebuildIds db uid (limit * 2)) []
        have h2 : (rebuildIds db uid (limit * 2)).length ≤ limit * 2 := by
          unfold rebuildIds
          have := List.length_take_le (limit * 2)
            (sortDescNat ((db.tweets.filter (fun t =>
              (followingIds db uid).contains t.author_id && t.reply_to_id == none)).map
              (·.id)))
          omega
        simp only [List.length_nil] at h1
        omega
      · rw [rebuild_timeline_getSet_ne s db r user_id (limit * 2) (fun heq => ?_)]
        · exact hb uid
        · cases heq
          exact huid rfl
    · rw [if_neg hm]
      exact hb uid

/-- Witness for C3 (amended) at a concrete input: a push fan-out on an
empty cache keeps every Publish Cache entry within the default bound. -/
theorem claim3_witness :
    timelineBounded defaultSettings.timeline_max_size
      (fanout_tweet defaultSettings dbPush rEmpty tw5 authorPush).2 :=
  (claim3_amended defaultSettings dbPush rEmpty tw5 authorPush 50 20 none (by decide)
    (fun uid => by
      rw [show rEmpty.getSet (.timeline uid) = [] from rfl]
      exact Nat.zero_le _)).1

/-- C4 counterexample: user 50's only followee (user 100,
`followers_count = 5000`, at the celebrity threshold) is a pull-model
publisher, yet with both cache families empty the rebuild fetches that
celebrity's post 7 from the Durable Store and repopulates it into user
50's Publish Cache — contradicting "push-model followees only". -/
theorem claim4_counterexample :
    (get_home_timeline defaultSettings dbC4 rEmpty 50 20 none).2.getSet (.timeline 50) =
      [7] ∧
    (get_home_timeline defaultSettings dbC4 rEmpty 50 20 none).1.tweets.map Tweet.id =
      [7] ∧
    dbC4.follows = [⟨50, 100⟩] ∧
    (⟨100, 5000⟩ : User) ∈ dbC4.users ∧
    defaultSettings.celebrity_threshold ≤ 5000 := by
  decide

/-- C4 amended: when the merged cache id set is empty,
`get_home_timeline` rebuilds by querying the Durable Store for the most
recent top-level posts authored by ALL of the caller's followees
(regardless of the authors' follower counts — the source applies no
celebrity filter in `_rebuild_timeline`), repopulates exactly those ids
into the caller's Publish Cache (touching no other entry), and uses the
rebuilt list directly for the single retried assembly. -/
theorem claim4_amended (s : Settings) (db : Db) (r : RedisState) (user_id limit : Nat)
    (hpk : (db.tweets.map Tweet.id).Nodup)
    (hempty : r.getSet (.timeline user_id) = [])
    (hceleb : ∀ c ∈ celebrityFollowingIds s db user_id,
      r.getSet (.celebrity_tweets c) = []) :
    (get_home_timeline s db r user_id limit none).1.tweets.map Tweet.id =
      (rebuildIds db user_id (limit * 2)).take limit ∧
    (get_home_timeline s db r user_id limit none).2.getSet (.timeline user_id) =
      (rebuildIds db user_id (limit * 2)).reverse ∧
    (∀ k, k ≠ CacheKey.timeline user_id →
      (get_home_timeline s db r user_id limit none).2.getSet k = r.getSet k) := by
  have hcached : r.zrevrange (.timeline user_id) 0 ((limit : Int) + 50) = [] := by
    rw [RedisState.zrevrange, hempty]
    exact zrevrangeList_nil _
  have hcelebT : get_celebrity_tweets s db r user_id limit = [] :=
    get_celebrity_tweets_of_empty s db r user_id limit hceleb
  have hm : (r.zrevrange (.timeline user_id) 0 ((limit : Int) + 50) ++
      get_celebrity_tweets s db r user_id limit).dedup = [] := by
    rw [hcached, hcelebT]
    rfl
  have hfold : (rebuildIds db user_id (limit * 2)).foldl
      (fun acc tid => zsetInsert tid acc) [] =
      (rebuildIds db user_id (limit * 2)).reverse := by
    rw [foldl_zsetInsert_strictDesc (rebuildIds_strictDesc hpk user_id (limit * 2))
      List.sorted_nil (fun y _ z hz => absurd hz (List.not_mem_nil z))]
    exact List.append_nil _
  refine ⟨?_, ?_, ?_⟩
  · rw [get_home_timeline, get_home_timeline_from]
    simp only [hm, if_true, rebuild_timeline_fst, parse_cursor, applyCursor_none,
      sortDescNat_eq_self (rebuildIds_sorted db user_id (limit * 2))]
    have hfinal : (if decide (limit <
          ((rebuildIds db user_id (limit * 2)).take (limit + 1)).length) = true
        then ((rebuildIds db user_id (limit * 2)).take (limit + 1)).take limit
        else (rebuildIds db user_id (limit * 2)).take (limit + 1)) =
        (rebuildIds db user_id (limit * 2)).take limit := by
      by_cases hlen : limit < ((rebuildIds db user_id (limit * 2)).take (limit + 1)).length
      · rw [if_pos (by simpa using hlen), List.take_take]
        congr 1
        omega
      · rw [if_neg (by simpa using hlen)]
        have h1 : min (limit + 1) (rebuildIds db user_id (limit * 2)).length ≤ limit := by
          have := List.length_take (limit + 1) (rebuildIds db user_id (limit * 2))
          omega
        have h2 : (rebuildIds db user_id (limit * 2)).length ≤ limit := by omega
        rw [List.take_of_length_le (by omega), List.take_of_length_le h2]
    rw [hfinal]
    apply fetch_tweets_map_id
    intro i hi
    exact mem_rebuildIds_exists db user_id (limit * 2) (List.mem_of_mem_take hi)
  · rw [get_home_timeline_snd]
    simp only [hm, if_true]
    rw [rebuild_timeline_getSet_self, hempty, hfold]
  · intro k hk
    rw [get_home_timeline_snd]
    simp only [hm, if_true]
    exact rebuild_timeline_getSet_ne s db r user_id (limit * 2) hk

/-- Witness for C4 (amended) at a concrete input: the cold-cache rebuild
for user 50 over `dbC4` returns and repopulates exactly the followee's
posts. -/
theorem claim4_witness :
    (get_home_timeline defaultSettings dbC4 rEmpty 50 20 none).1.tweets.map Tweet.id =
      (rebuildIds dbC4 50 40).take 20 :=
  (claim4_amended defaultSettings dbC4 rEmpty 50 20 (by decide) rfl
    (fun c _ => rfl)).1

/-- C5 counterexample: a regular publisher (below the threshold) with
zero followers emits no realtime event at all — `_fanout_regular`
returns before `_publish_realtime` — so "every call emits exactly one
posted event" fails. -/
theorem claim5_counterexample :
    (fanout_tweet defaultSettings dbNoFollowers rEmpty
        { id := 9, author_id := 100, reply_to_id := none, content := "" }
        ⟨100, 0⟩).2.published.length ≠ rEmpty.published.length + 1 := by
  decide

/-- C5 amended: `fanout_tweet` appends exactly one `posted` realtime
event carrying the post id, the publisher id and the resolved follower
ids — except for a below-threshold publisher whose follower list is
empty, in which case no event is emitted. -/
theorem claim5_amended (s : Settings) (db : Db) (r : RedisState) (t : Tweet) (a : User) :
    (fanout_tweet s db r t a).2.published =
      r.published ++
        (if a.followers_count < s.celebrity_threshold ∧ followerIds db a.id = [] then []
         else [RealtimeMessage.new_tweet t.id t.author_id t.content
            (followerIds db a.id)]) := by
  by_cases hcel : s.celebrity_threshold ≤ a.followers_count
  · rw [fanout_tweet, if_pos hcel, if_neg (fun hc => by omega)]
    simp only [fanout_celebrity, publish_realtime, published_publish,
      published_zremrangebyrank, published_zadd]
  · have hlt : a.followers_count < s.celebrity_threshold := by omega
    rw [fanout_tweet, if_neg hcel]
    by_cases hf : followerIds db a.id = []
    · rw [if_pos ⟨hlt, hf⟩]
      simp [fanout_regular, hf]
    · rw [if_neg (fun hc => hf hc.2)]
      simp only [fanout_regular, if_neg hf, publish_realtime, published_publish,
        published_fanoutFold]

/-- C6 counterexample: with the cache connection down (and the Durable
Store holding data), `get_home_timeline` raises instead of falling back
to the Durable Store: no redis call on the read path is guarded by any
exception handler. -/
theorem claim6_counterexample :
    get_home_timelineE defaultSettings dbC1 rDown 50 10 none = Except.error () ∧
    dbC1.tweets ≠ [] ∧ rDown.sets ≠ [] := by
  refine ⟨rfl, by decide, by decide⟩

/-- C6 amended: a home-timeline request fails exactly when the cache
layer is unavailable — the first raised cache error propagates to the
caller — and succeeds (agreeing with the pure assembly) whenever the
cache layer answers; the durable fallback is reached only through an
empty (but successful) cache read. -/
theorem claim6_amended (s : Settings) (db : Db) (r : RedisState) (user_id limit : Nat)
    (cursor : Option String) :
    (r.available = false →
      get_home_timelineE s db r user_id limit cursor = Except.error ()) ∧
    (r.available = true →
      get_home_timelineE s db r user_id limit cursor =
        Except.ok (get_home_timeline s db r user_id limit cursor)) := by
  constructor
  · intro h
    rw [get_home_timelineE]
    rw [show r.zrevrangeE (.timeline user_id) 0 ((limit : Int) + 50) = Except.error ()
      from by rw [RedisState.zrevrangeE, if_neg (by rw [h]; simp)]]
    rfl
  · exact get_home_timelineE_ok s db r user_id limit cursor

/-- Witness for C6 (amended) at a concrete input: with the cache up, the
fallible read path returns the pure page. -/
theorem claim6_witness :
    get_home_timelineE defaultSettings dbC1 rC1 50 10 none =
      Except.ok (get_home_timeline defaultSettings dbC1 rC1 50 10 none) :=
  (claim6_amended defaultSettings dbC1 rC1 50 10 none).2 rfl

/-- C7: after `remove_from_timelines` (run after the fan-out of the same
post against the same store state), the post id is absent from every
cache entry consulted for the recipients notified at fan-out time — each
follower's Publish Cache entry for a push publisher, the publisher's
Broadcast Cache entry for a pull publisher — and a `deleted` realtime
event is appended. -/
theorem claim7_retract (s : Settings) (db : Db) (r : RedisState) (t : Tweet) (a : User) :
    (a.followers_count < s.celebrity_threshold →
      ∀ f ∈ followerIds db a.id,
        t.id ∉ (remove_from_timelines s db (fanout_tweet s db r t a).2 t a).getSet
          (.timeline f)) ∧
    (s.celebrity_threshold ≤ a.followers_count →
      t.id ∉ (remove_from_timelines s db (fanout_tweet s db r t a).2 t a).getSet
        (.celebrity_tweets a.id)) ∧
    (remove_from_timelines s db (fanout_tweet s db r t a).2 t a).published =
      ((fanout_tweet s db r t a).2).published ++ [RealtimeMessage.tweet_deleted t.id] := by
  refine ⟨?_, ?_, ?_⟩
  · intro hreg f hf
    have hncel : ¬ s.celebrity_threshold ≤ a.followers_count := by omega
    simp only [remove_from_timelines, if_neg hncel, getSet_publish]
    exact not_mem_zremFold t.id hf _
  · intro hcel
    simp only [remove_from_timelines, if_pos hcel, getSet_publish, getSet_zrem_self]
    intro hmem
    simp only [List.mem_filter, decide_eq_true_eq] at hmem
    exact hmem.2 rfl
  · by_cases hcel : s.celebrity_threshold ≤ a.followers_count
    · simp only [remove_from_timelines, if_pos hcel, published_publish, published_zrem]
    · simp only [remove_from_timelines, if_neg hcel, published_publish, published_zremFold]

/-- Witness for C7 at a concrete input: after fan-out and retract of
tweet 5 by the regular publisher 100, follower 2's entry no longer holds
the id. -/
theorem claim7_witness :
    tw5.id ∉ (remove_from_timelines defaultSettings dbPush
        (fanout_tweet defaultSettings dbPush rEmpty tw5 authorPush).2 tw5
        authorPush).getSet (.timeline 2) :=
  (claim7_retract defaultSettings dbPush rEmpty tw5 authorPush).1 (by decide) 2 (by decide)

/-- C8: `fanout_tweet` is idempotent on cache state: starting from any
well-formed cache (every sorted-set value strictly ascending), running
the fan-out of the same post a second time leaves the cardinality of
every sorted set exactly as it was after the first run. -/
theorem claim8_idempotent (s : Settings) (db : Db) (r : RedisState) (t : Tweet) (a : User)
    (hsorted : ∀ k, (r.getSet k).Sorted (· < ·))
    (hnd : (followerIds db a.id).Nodup) :
    ∀ k, (((fanout_tweet s db (fanout_tweet s db r t a).2 t a).2).getSet k).length =
      (((fanout_tweet s db r t a).2).getSet k).length := by
  intro k
  suffices heq : ((fanout_tweet s db (fanout_tweet s db r t a).2 t a).2).getSet k =
      ((fanout_tweet s db r t a).2).getSet k by rw [heq]
  by_cases hcel : s.celebrity_threshold ≤ a.followers_count
  · by_cases hk : k = CacheKey.celebrity_tweets a.id
    · subst hk
      rw [fanout_getSet_celeb_self s db _ t a hcel,
        fanout_getSet_celeb_self s db r t a hcel]
      exact trimInsert_idem (hsorted _)
    · exact fanout_getSet_celeb_other s db _ t a hcel hk
  · by_cases hk : ∀ f ∈ followerIds db a.id, k ≠ CacheKey.timeline f
    · exact fanout_getSet_regular_other s db _ t a hcel hk
    · push_neg at hk
      obtain ⟨f, hf, hfk⟩ := hk
      subst hfk
      rw [fanout_getSet_regular_mem s db _ t a hcel hnd hf,
        fanout_getSet_regular_mem s db r t a hcel hnd hf]
      exact trimInsert_idem (hsorted _)

/-- Witness for C8 at a concrete input: the second fan-out of tweet 5
leaves follower 2's entry cardinality unchanged. -/
theorem claim8_witness :
    (((fanout_tweet defaultSettings dbPush
        (fanout_tweet defaultSettings dbPush rEmpty tw5 authorPush).2 tw5
        authorPush).2).getSet (.timeline 2)).length =
      (((fanout_tweet defaultSettings dbPush rEmpty tw5 authorPush).2).getSet
        (.timeline 2)).length :=
  claim8_idempotent defaultSettings dbPush rEmpty tw5 authorPush
    (fun k => by
      rw [show rEmpty.getSet k = [] from rfl]
      exact List.sorted_nil) (by decide) (.timeline 2)

/-- C9: a non-numeric cursor string such as "abc" makes `int(...)` raise
and is silently treated as "no cursor" by both timeline methods, for
every store and cache state. -/
theorem claim9_malformed_cursor (s : Settings) (db : Db) (r : RedisState)
    (user_id target_user_id limit : Nat) :
    get_home_timeline s db r user_id limit (some "abc") =
      get_home_timeline s db r user_id limit none ∧
    get_user_timeline db target_user_id limit (some "abc") =
      get_user_timeline db target_user_id limit none :=
  ⟨rfl, rfl⟩

/-- C10 (implicit): the cursor string "0" parses to `0`, which is falsy
in Python, so `if max_id:` skips the strictly-less-than filter entirely
and both timeline methods behave exactly as with no cursor, for every
store and cache state. -/
theorem claim10_zero_cursor (s : Settings) (db : Db) (r : RedisState)
    (user_id target_user_id limit : Nat) :
    get_home_timeline s db r user_id limit (some "0") =
      get_home_timeline s db r user_id limit none ∧
    get_user_timeline db target_user_id limit (some "0") =
      get_user_timeline db target_user_id limit none := by
  constructor
  · show get_home_timeline_from s db r user_id limit (parse_cursor (some "0")) =
      get_home_timeline_from s db r user_id limit (parse_cursor none)
    rw [show parse_cursor (some "0") = some 0 from rfl,
      show parse_cursor none = none from rfl]
    simp only [get_home_timeline_from, applyCursor_zero, applyCursor_none]
  · show get_user_timeline_from db target_user_id limit (parse_cursor (some "0")) =
      get_user_timeline_from db target_user_id limit (parse_cursor none)
    rw [show parse_cursor (some "0") = some 0 from rfl,
      show parse_cursor none = none from rfl]
    simp only [get_user_timeline_from, tweetBeforeCursor_zero]


end TwitterClone
